import Mathlib

/-!
Shallow embedding of `find_duplicates.py`, the aggregation core of the
nextcloud duplicate-report script: the `MatchSet` model of one jdupes
duplicate group, the folder cache mapping each parent directory to the
match sets owning a member there, the per-folder analyzer
`duplicates_in_folder`, the markdown report builder, and the `humansize`
byte formatter.

Modelling conventions:
* a filesystem path is its list of components; `pathlib`'s `Path.parent`
  drops the last component;
* a Python `KeyError` (dict or set lookup failure) is `Option.none`;
* Python `set`s of value-like objects (`Path`, frozen dataclasses) are
  `Finset`s; the collection `match_sets` of freshly constructed objects
  (identity-keyed in Python) is a `List MatchSet`;
* the nondeterministic iteration order of Python sets is an explicit
  order parameter of the report builder;
* CPython floats in `humansize` are modelled by `ℚ`; every operation the
  claims exercise (division by 1024, `.2f` on exactly representable
  values) is exact, so the model agrees with the float computation there.
-/

namespace FindDuplicates

/-- A filesystem path, modelled as its list of name components
(e.g. `/d1/a` is `["d1", "a"]`). -/
abbrev Path := List String

/-- Embeds `pathlib.Path.parent`: drop the final path component. -/
def Path.parent (p : Path) : Path := p.dropLast

/-- One jdupes match set (`MatchSet.__init__`, lines 44-54): the common
byte size of the members (`self._file_size`, a plain Python `int`, so
`Int` here) and the list of member paths (`self._file_list`). -/
structure MatchSet where
  file_size : Int
  file_list : List Path
deriving DecidableEq

/-- One element of the raw `fileList` array: a JSON object whose
`"filePath"` key may be absent (`none`). -/
structure RawFileEntry where
  filePath : Option Path
deriving DecidableEq

/-- One raw `matchSets` record of the jdupes JSON payload, as consumed by
`MatchSet.__init__`: each field is `none` when the corresponding JSON key
(`"fileSize"` resp. `"fileList"`) is absent. -/
structure RawMatchSet where
  fileSize : Option Int
  fileList : Option (List RawFileEntry)
deriving DecidableEq

/-- Embeds `MatchSet._get_file_list`'s loop body (lines 51-54): each
iteration appends `Path(str_path["filePath"])`, and the key lookup
raises `KeyError` (`none`) on an entry without the `"filePath"` key. -/
def get_file_list (items : List RawFileEntry) : Option (List Path) :=
  match items with
  | [] => some []
  | it :: rest =>
    match it.filePath with
    | none => none
    | some p =>
      match get_file_list rest with
      | none => none
      | some ps => some (p :: ps)

/-- Embeds `MatchSet.__init__` as a constructor on raw records: the key
lookups `json_data["fileSize"]`, `json_data["fileList"]` and, inside
`_get_file_list`, each `str_path["filePath"]` raise `KeyError` (here:
`none`) when the key is missing, and the values are stored as-is — the
source performs no further validation. -/
def MatchSet.construct (r : RawMatchSet) : Option MatchSet :=
  match r.fileSize with
  | none => none
  | some sz =>
    match r.fileList with
    | none => none
    | some items =>
      match get_file_list items with
      | none => none
      | some fl => some { file_size := sz, file_list := fl }

/-- Embeds `MatchSet.directory_list` (lines 64-66):
`[x.parent for x in self._file_list]`. -/
def MatchSet.directory_list (m : MatchSet) : List Path :=
  m.file_list.map Path.parent

/-- The frozen dataclass `DuplicateInFolder` (lines 68-72): structural
equality, `other_paths` a `frozenset`. -/
structure DuplicateInFolder where
  in_duplicate_folder : Path
  other_paths : Finset Path
  size : Int
deriving DecidableEq

/-- The folder cache `dict[Path, set[MatchSet]]`: a key that was never
inserted maps to `none` (a lookup there is a `KeyError`). -/
abbrev FolderCache := Path → Option (Finset MatchSet)

/-- One iteration of the inner loop of `_create_folder_cache`
(lines 110-112): `if folder not in result: result[folder] = set()`
followed by `result[folder].add(match_set)`. -/
def addToCache (d : FolderCache) (folder : Path) (m : MatchSet) : FolderCache :=
  fun f => if f = folder then some (insert m ((d folder).getD ∅)) else d f

/-- Embeds `JDupesOutput._create_folder_cache` (lines 105-113): fold the double
loop `for match_set in match_sets: for folder in match_set.directory_list`
over the empty dict. -/
def create_folder_cache (match_sets : List MatchSet) : FolderCache :=
  match_sets.foldl
    (fun d m => m.directory_list.foldl (fun d folder => addToCache d folder m) d)
    (fun _ => none)

/-- Embeds `JDupesOutput.total_size` (lines 115-117):
`sum(map(lambda x: x.file_size, self.match_sets))`. -/
def total_size (match_sets : List MatchSet) : Int :=
  (match_sets.map MatchSet.file_size).sum

/-- Embeds `JDupesOutput.folders_with_duplicates` (lines 119-125): the set of
`file_path.parent` over every file of every match set. -/
def folders_with_duplicates (match_sets : List MatchSet) : Finset Path :=
  (match_sets.flatMap (fun m => m.file_list.map Path.parent)).toFinset

/-- The entries contributed by one match set in the inner loop of
`duplicates_in_folder` (lines 130-135): for every member whose parent is
`folder`, an entry with that member, the member set minus it
(`set(file_list.copy())` then `.remove(file_path)`), and the group size. -/
def entries_of_match_set (m : MatchSet) (folder : Path) : Finset DuplicateInFolder :=
  ((m.file_list.filter (fun fp => decide (Path.parent fp = folder))).map
    (fun fp =>
      { in_duplicate_folder := fp
        other_paths := m.file_list.toFinset.erase fp
        size := m.file_size })).toFinset

/-- Embeds `JDupesOutput.duplicates_in_folder` (lines 127-136): the lookup
`self._folder_cache[folder]` raises `KeyError` (`none`) on a folder that
was never indexed; otherwise the result set is the union of the entries
of every cached match set. -/
def duplicates_in_folder (match_sets : List MatchSet) (folder : Path) :
    Option (Finset DuplicateInFolder) :=
  match create_folder_cache match_sets folder with
  | none => none
  | some cache => some (cache.biUnion (fun m => entries_of_match_set m folder))

/-- The per-folder rollup computed inline in `to_markdown` (lines
166-167): `sum(map(lambda x: x.size, self.duplicates_in_folder(f)))`.
The `none` case cannot arise for the folders `to_markdown` iterates over
(the report folders are exactly the cache keys); `getD ∅` makes the
definition total. -/
def duplicate_folder_size (match_sets : List MatchSet) (folder : Path) : Int :=
  ∑ e ∈ (duplicates_in_folder match_sets folder).getD ∅, e.size

/-! ### The `humansize` byte formatter (lines 186-193) -/

/-- Round half to even, the rounding CPython's `format(x, '.2f')`
applies to the scaled value. -/
def roundHalfEven (q : ℚ) : Int :=
  let f : Int := ⌊q⌋
  let r : ℚ := q - (f : ℚ)
  if r < 1 / 2 then f
  else if 1 / 2 < r then f + 1
  else if f % 2 = 0 then f else f + 1

/-- Python's `f'{x:.2f}'` on a non-negative value: round to hundredths
and print with exactly two decimal digits. -/
def format2f (q : ℚ) : String :=
  let cents : Int := roundHalfEven (q * 100)
  let ip : Int := cents / 100
  let fp : Int := cents % 100
  toString ip ++ "." ++ (if fp < 10 then "0" else "") ++ toString fp

/-- Python's `str.rstrip` with a single-character argument: remove every
trailing occurrence of `c`. -/
def rstrip (s : String) (c : Char) : String :=
  String.mk ((s.data.reverse.dropWhile (fun d => d = c)).reverse)

/-- The `while` loop of `humansize` (lines 189-191): divide by 1024
while the value is at least 1024 and a larger unit remains. The fuel
argument is `len(suffixes) - 1 - i`, which makes the loop structural;
`humansize` starts it at 5, so the guard `fuel > 0` is exactly the
source's `i < len(suffixes) - 1`. -/
def humanLoop : Nat → ℚ → Nat → ℚ × Nat
  | 0, nbytes, i => (nbytes, i)
  | fuel + 1, nbytes, i =>
    if 1024 ≤ nbytes then humanLoop fuel (nbytes / 1024) (i + 1) else (nbytes, i)

/-- Embeds `humansize` (lines 186-193): scale into the right unit, format with
two decimals, strip trailing zeros then a trailing dot, append two
spaces and the unit suffix. -/
def humansize (nbytes : ℚ) : String :=
  let suffixes : List String := ["B", "KB", "MB", "GB", "TB", "PB"]
  let vi := humanLoop 5 nbytes 0
  let size := rstrip (rstrip (format2f vi.1) '0') '.'
  size ++ "  " ++ suffixes.getD vi.2 ""

/-! ### The report builder `to_markdown` (lines 139-184)

The builder iterates Python `set`s (`folders_with_duplicates`, the entry
set, each entry's `frozenset` of other copies) whose iteration order is
arbitrary; those orders are explicit parameters (`folderOrder` and the
two order functions of `RenderCtx`). The external collaborators of the
script — the Nextcloud link formatter `create_link`, `relative_to` on
the user file root, and the `iterdir` directory listing — are opaque
functions of `RenderCtx`. -/

/-- External collaborators and set-iteration orders used by
`to_markdown`. -/
structure RenderCtx where
  user : String
  create_link : Path → String
  rel : Path → String
  fileLister : Path → List Path
  entryOrder : Finset DuplicateInFolder → List DuplicateInFolder
  pathOrder : Finset Path → List Path

/-- The first pass of `to_markdown` (lines 142-149): list the folder,
compute its entries, and keep the listed files that are not the `file`
of any entry. -/
def processFolder (match_sets : List MatchSet) (ctx : RenderCtx)
    (duplicate_folder : Path) : Path × Finset DuplicateInFolder × List Path :=
  let all_files := ctx.fileLister duplicate_folder
  let dups := (duplicates_in_folder match_sets duplicate_folder).getD ∅
  let duplicate_files := dups.image DuplicateInFolder.in_duplicate_folder
  let not_duplicate_files := all_files.filter (fun x => decide (x ∉ duplicate_files))
  (duplicate_folder, dups, not_duplicate_files)

/-- The lines `to_markdown` emits for one duplicated file
(lines 173-179). -/
def renderEntry (ctx : RenderCtx) (e : DuplicateInFolder) : List String :=
  let rel_str := ctx.rel e.in_duplicate_folder
  let size_str := humansize ((e.size : ℚ))
  let links := (ctx.pathOrder e.other_paths).map ctx.create_link
  let duplicate_files_str := "\t- " ++ String.intercalate "  \n\t- " links
  ["- " ++ rel_str ++ "  ",
   "\tGröße: " ++ size_str ++ "  ",
   "\tAndere(r) Ordner:  ",
   duplicate_files_str ++ "  "]

/-- The lines `to_markdown` emits for one folder section (lines
159-183). The rollup recomputes `self.duplicates_in_folder` exactly as
the source does on lines 166-167. -/
def renderSection (match_sets : List MatchSet) (ctx : RenderCtx)
    (entry : Path × Finset DuplicateInFolder × List Path) : List String :=
  let folder_link := ctx.create_link entry.1
  let size_str := humansize ((duplicate_folder_size match_sets entry.1 : ℚ))
  ["## Ordner mit Duplikaten: " ++ folder_link,
   "Die Duplikate in diesem Ordner sind " ++ size_str ++ " groß  "]
  ++ (if entry.2.2.length = 0 then ["Dieser Ordner enthält nur Duplikate  "] else [])
  ++ ["### Duplizierte Dateien:"]
  ++ (ctx.entryOrder entry.2.1).flatMap (renderEntry ctx)
  ++ (if entry.2.2.length > 0 then
        "### Nicht duplizierte Dateien" :: entry.2.2.map (fun x => "- " ++ ctx.rel x)
      else [])

/-- Embeds line 151: `sorted(duplicate_folders, key=lambda x: len(x[2]))`.
Python's `sorted` is a stable sort ascending in the key; a stable sort's
output is uniquely determined, so the (equally stable) insertion sort
models it faithfully. -/
def sorted_duplicate_folders (match_sets : List MatchSet) (ctx : RenderCtx)
    (folderOrder : List Path) : List (Path × Finset DuplicateInFolder × List Path) :=
  List.insertionSort (fun a b => a.2.2.length ≤ b.2.2.length)
    (folderOrder.map (processFolder match_sets ctx))

/-- Embeds `JDupesOutput.to_markdown` as the list of appended lines: the global
header (lines 153-157) followed by the per-folder sections in sorted
order (lines 159-183). -/
def to_markdown_lines (match_sets : List MatchSet) (ctx : RenderCtx)
    (folderOrder : List Path) : List String :=
  ["# Duplikate von " ++ ctx.user,
   "Es gibt " ++ toString match_sets.length ++ " Duplikate in " ++
     toString (folders_with_duplicates match_sets).card ++ " Ordnern.  ",
   "Diese sind insgesamt " ++ humansize ((total_size match_sets : ℚ)) ++ " groß.",
   "## Alle Ordner mit Duplikaten"]
  ++ (sorted_duplicate_folders match_sets ctx folderOrder).flatMap
      (renderSection match_sets ctx)

/-- Embeds line 184: `"\n".join(result)`. -/
def to_markdown (match_sets : List MatchSet) (ctx : RenderCtx)
    (folderOrder : List Path) : String :=
  String.intercalate "\n" (to_markdown_lines match_sets ctx folderOrder)

/-! ### Concrete fixtures (the end-to-end example of the spec) -/

/-- Group A of the spec's end-to-end example:
`{size:100, files:[/d1/a, /d1/b, /d2/a]}`. -/
def exampleA : MatchSet :=
  { file_size := 100, file_list := [["d1", "a"], ["d1", "b"], ["d2", "a"]] }

/-- Group B of the spec's end-to-end example:
`{size:50, files:[/d2/c, /d2/d]}`. -/
def exampleB : MatchSet :=
  { file_size := 50, file_list := [["d2", "c"], ["d2", "d"]] }

/-- The example collection `[A, B]`. -/
def exampleSets : List MatchSet := [exampleA, exampleB]

/-- The analyzer's output for `/d1` on the example collection. -/
def exampleD1Entries : Finset DuplicateInFolder :=
  { { in_duplicate_folder := ["d1", "a"]
      other_paths := {["d1", "b"], ["d2", "a"]}
      size := 100 },
    { in_duplicate_folder := ["d1", "b"]
      other_paths := {["d1", "a"], ["d2", "a"]}
      size := 100 } }

/-- A concrete render context for the fixtures: plain path formatting,
a directory listing that makes `/d1` a pure-duplicate folder, and
arbitrary set-iteration orders. -/
def exampleCtx : RenderCtx :=
  { user := "user"
    create_link := fun p => String.intercalate "/" p
    rel := fun p => String.intercalate "/" p
    fileLister := fun f =>
      if f = ["d1"] then [["d1", "a"], ["d1", "b"]]
      else [["d2", "a"], ["d2", "c"], ["d2", "d"], ["d2", "x"]]
    entryOrder := fun _ => []
    pathOrder := fun _ => [] }

/-! ### Characterization of the folder cache -/

/-- Pointwise description of one `addToCache` step. -/
theorem addToCache_apply (d : FolderCache) (folder : Path) (m : MatchSet) (f : Path) :
    addToCache d folder m f =
      if f = folder then some (insert m ((d f).getD ∅)) else d f := by
  unfold addToCache
  by_cases h : f = folder
  · subst h
    simp
  · simp [h]

/-- Membership after folding the inner loop of `_create_folder_cache`
over one match set's directory list. -/
theorem mem_foldAdd (m : MatchSet) (folders : List Path) (d : FolderCache)
    (f : Path) (x : MatchSet) :
    x ∈ ((folders.foldl (fun d folder => addToCache d folder m) d) f).getD ∅ ↔
      x ∈ (d f).getD ∅ ∨ (x = m ∧ f ∈ folders) := by
  induction folders generalizing d with
  | nil => simp
  | cons folder rest ih =>
    rw [List.foldl_cons, ih, addToCache_apply]
    by_cases h : f = folder
    · rw [if_pos h]
      subst h
      simp only [Option.getD_some, Finset.mem_insert, List.mem_cons,
        eq_self_iff_true, true_or]
      tauto
    · rw [if_neg h]
      simp only [List.mem_cons]
      constructor
      · rintro (h1 | ⟨rfl, h2⟩)
        · exact Or.inl h1
        · exact Or.inr ⟨rfl, Or.inr h2⟩
      · rintro (h1 | ⟨rfl, h2 | h2⟩)
        · exact Or.inl h1
        · exact absurd h2 h
        · exact Or.inr ⟨rfl, h2⟩

/-- Key presence after folding the inner loop over one directory list. -/
theorem isSome_foldAdd (m : MatchSet) (folders : List Path) (d : FolderCache)
    (f : Path) :
    ((folders.foldl (fun d folder => addToCache d folder m) d) f).isSome ↔
      (d f).isSome ∨ f ∈ folders := by
  induction folders generalizing d with
  | nil => simp
  | cons folder rest ih =>
    rw [List.foldl_cons, ih, addToCache_apply]
    by_cases h : f = folder
    · subst h
      simp
    · simp [h]

/-- Membership after folding the outer loop of `_create_folder_cache`. -/
theorem mem_foldCache (match_sets : List MatchSet) (d : FolderCache)
    (f : Path) (x : MatchSet) :
    x ∈ ((match_sets.foldl
        (fun d m => m.directory_list.foldl (fun d folder => addToCache d folder m) d)
        d) f).getD ∅ ↔
      x ∈ (d f).getD ∅ ∨ (x ∈ match_sets ∧ f ∈ x.directory_list) := by
  induction match_sets generalizing d with
  | nil => simp
  | cons m rest ih =>
    rw [List.foldl_cons, ih, mem_foldAdd]
    constructor
    · rintro ((h | ⟨rfl, h2⟩) | ⟨h1, h2⟩)
      · exact Or.inl h
      · exact Or.inr ⟨List.mem_cons_self _ _, h2⟩
      · exact Or.inr ⟨List.mem_cons_of_mem _ h1, h2⟩
    · rintro (h | ⟨h1, h2⟩)
      · exact Or.inl (Or.inl h)
      · rcases List.mem_cons.mp h1 with rfl | h1
        · exact Or.inl (Or.inr ⟨rfl, h2⟩)
        · exact Or.inr ⟨h1, h2⟩

/-- Key presence after folding the outer loop of `_create_folder_cache`. -/
theorem isSome_foldCache (match_sets : List MatchSet) (d : FolderCache) (f : Path) :
    ((match_sets.foldl
        (fun d m => m.directory_list.foldl (fun d folder => addToCache d folder m) d)
        d) f).isSome ↔
      (d f).isSome ∨ ∃ m ∈ match_sets, f ∈ m.directory_list := by
  induction match_sets generalizing d with
  | nil => simp
  | cons m rest ih =>
    rw [List.foldl_cons, ih, isSome_foldAdd]
    simp only [List.mem_cons]
    constructor
    · rintro ((h | h) | ⟨m', h1, h2⟩)
      · exact Or.inl h
      · exact Or.inr ⟨m, Or.inl rfl, h⟩
      · exact Or.inr ⟨m', Or.inr h1, h2⟩
    · rintro (h | ⟨m', rfl | h1, h2⟩)
      · exact Or.inl (Or.inl h)
      · exact Or.inl (Or.inr h2)
      · exact Or.inr ⟨m', h1, h2⟩

/-- A match set is cached for a folder exactly when it owns a member
directly inside that folder. -/
theorem mem_create_folder_cache (match_sets : List MatchSet) (f : Path) (x : MatchSet) :
    x ∈ ((create_folder_cache match_sets f).getD ∅) ↔
      x ∈ match_sets ∧ f ∈ x.directory_list := by
  unfold create_folder_cache
  rw [mem_foldCache]
  simp

/-- A folder is a key of the cache exactly when some match set owns a
member directly inside it. -/
theorem isSome_create_folder_cache (match_sets : List MatchSet) (f : Path) :
    (create_folder_cache match_sets f).isSome ↔
      ∃ m ∈ match_sets, f ∈ m.directory_list := by
  unfold create_folder_cache
  rw [isSome_foldCache]
  simp

/-! ### Characterization of the analyzer -/

/-- The entries one match set contributes for a folder. -/
theorem mem_entries_of_match_set (m : MatchSet) (folder : Path) (e : DuplicateInFolder) :
    e ∈ entries_of_match_set m folder ↔
      ∃ fp ∈ m.file_list, Path.parent fp = folder ∧
        e = { in_duplicate_folder := fp
              other_paths := m.file_list.toFinset.erase fp
              size := m.file_size } := by
  unfold entries_of_match_set
  simp only [List.mem_toFinset, List.mem_map, List.mem_filter, decide_eq_true_eq]
  constructor
  · rintro ⟨fp, ⟨h1, h2⟩, rfl⟩
    exact ⟨fp, h1, h2, rfl⟩
  · rintro ⟨fp, h1, h2, rfl⟩
    exact ⟨fp, ⟨h1, h2⟩, rfl⟩

/-- The analyzer `duplicates_in_folder` returns a value exactly on cached folders. -/
theorem isSome_duplicates_in_folder (match_sets : List MatchSet) (folder : Path) :
    (duplicates_in_folder match_sets folder).isSome ↔
      (create_folder_cache match_sets folder).isSome := by
  unfold duplicates_in_folder
  cases create_folder_cache match_sets folder <;> simp

/-- Membership characterization of the analyzer output: an entry is
returned exactly when it is built from a member (of some match set of
the collection) whose parent is the analyzed folder. -/
theorem mem_duplicates_in_folder (match_sets : List MatchSet) (folder : Path)
    (e : DuplicateInFolder) :
    e ∈ (duplicates_in_folder match_sets folder).getD ∅ ↔
      ∃ m ∈ match_sets, ∃ fp ∈ m.file_list, Path.parent fp = folder ∧
        e = { in_duplicate_folder := fp
              other_paths := m.file_list.toFinset.erase fp
              size := m.file_size } := by
  unfold duplicates_in_folder
  cases hc : create_folder_cache match_sets folder with
  | none =>
    simp only [Option.getD_none, Finset.not_mem_empty, false_iff]
    rintro ⟨m, hm, fp, hfp, hpar, _⟩
    have hk : (create_folder_cache match_sets folder).isSome := by
      rw [isSome_create_folder_cache]
      exact ⟨m, hm, List.mem_map.mpr ⟨fp, hfp, hpar⟩⟩
    rw [hc] at hk
    simp at hk
  | some cache =>
    have hmem : ∀ x, x ∈ cache ↔ x ∈ match_sets ∧ folder ∈ x.directory_list := by
      intro x
      have := mem_create_folder_cache match_sets folder x
      rw [hc] at this
      simpa using this
    simp only [Option.getD_some, Finset.mem_biUnion]
    constructor
    · rintro ⟨m, hm, he⟩
      rcases (mem_entries_of_match_set m folder e).mp he with ⟨fp, h1, h2, rfl⟩
      exact ⟨m, ((hmem m).mp hm).1, fp, h1, h2, rfl⟩
    · rintro ⟨m, hm, fp, h1, h2, rfl⟩
      refine ⟨m, (hmem m).mpr ⟨hm, List.mem_map.mpr ⟨fp, h1, h2⟩⟩, ?_⟩
      exact (mem_entries_of_match_set m folder _).mpr ⟨fp, h1, h2, rfl⟩

/-- A folder appears in `folders_with_duplicates` exactly when some
match set owns a member directly inside it. -/
theorem mem_folders_with_duplicates (match_sets : List MatchSet) (f : Path) :
    f ∈ folders_with_duplicates match_sets ↔
      ∃ m ∈ match_sets, ∃ fp ∈ m.file_list, Path.parent fp = f := by
  unfold folders_with_duplicates
  simp [List.mem_flatMap]

/-! ### Claim theorems -/

/-- C1: for every folder present in the index, the analyzer returns
exactly the entries built from the (group, member) pairs where the group
is indexed for the folder and the member's parent is the folder, each
entry carrying `file = member`, `otherCopies = members − {member}` and
the group's size; consequently every returned entry's file is not among
its other copies, and the file together with the other copies is the
member set of some group owning a member in the folder. -/
theorem duplicates_in_folder_spec (match_sets : List MatchSet) (folder : Path)
    (entries : Finset DuplicateInFolder)
    (h : duplicates_in_folder match_sets folder = some entries) :
    (∀ e, e ∈ entries ↔
      ∃ m ∈ match_sets, ∃ fp ∈ m.file_list, Path.parent fp = folder ∧
        e = { in_duplicate_folder := fp
              other_paths := m.file_list.toFinset.erase fp
              size := m.file_size }) ∧
    ∀ e ∈ entries, e.in_duplicate_folder ∉ e.other_paths ∧
      ∃ m ∈ match_sets, (∃ fp ∈ m.file_list, Path.parent fp = folder) ∧
        insert e.in_duplicate_folder e.other_paths = m.file_list.toFinset := by
  have hmem : ∀ e, e ∈ entries ↔
      ∃ m ∈ match_sets, ∃ fp ∈ m.file_list, Path.parent fp = folder ∧
        e = { in_duplicate_folder := fp
              other_paths := m.file_list.toFinset.erase fp
              size := m.file_size } := by
    intro e
    have hx := mem_duplicates_in_folder match_sets folder e
    rw [h] at hx
    simpa using hx
  refine ⟨hmem, ?_⟩
  intro e he
  rcases (hmem e).mp he with ⟨m, hm, fp, hfp, hpar, rfl⟩
  exact ⟨Finset.not_mem_erase _ _, m, hm, ⟨fp, hfp, hpar⟩,
    Finset.insert_erase (List.mem_toFinset.mpr hfp)⟩

/-- Witness for C1 at the spec's end-to-end example, folder `/d1`: the
entry for `/d1/a` (whose other copies include the sibling copy `/d1/b`)
is returned. -/
theorem duplicates_in_folder_spec_witness :
    ({ in_duplicate_folder := ["d1", "a"]
       other_paths := {["d1", "b"], ["d2", "a"]}
       size := 100 } : DuplicateInFolder) ∈ exampleD1Entries :=
  ((duplicates_in_folder_spec exampleSets ["d1"] exampleD1Entries (by decide)).1
    _).mpr (by decide)

/-- C3: the built index associates a folder with each group at most once
(the cached value is duplicate-free), and a cached-folder lookup returns
exactly the groups having at least one member whose parent is that
folder. -/
theorem create_folder_cache_spec (match_sets : List MatchSet) (f : Path)
    (s : Finset MatchSet) (h : create_folder_cache match_sets f = some s) :
    s.val.Nodup ∧
      ∀ m, m ∈ s ↔ m ∈ match_sets ∧ ∃ fp ∈ m.file_list, Path.parent fp = f := by
  refine ⟨s.nodup, ?_⟩
  intro m
  have hx := mem_create_folder_cache match_sets f m
  rw [h] at hx
  simp only [Option.getD_some] at hx
  rw [hx]
  unfold MatchSet.directory_list
  simp [List.mem_map]

/-- Witness for C3: on the example collection, `/d2` is indexed for both
groups, and group B — which has two members in `/d2` — appears once. -/
theorem create_folder_cache_spec_witness :
    ({exampleB, exampleA} : Finset MatchSet).val.Nodup ∧
      exampleB ∈ ({exampleB, exampleA} : Finset MatchSet) :=
  ⟨(create_folder_cache_spec exampleSets ["d2"] {exampleB, exampleA} (by decide)).1,
   ((create_folder_cache_spec exampleSets ["d2"] {exampleB, exampleA} (by decide)).2
     exampleB).mpr (by decide)⟩

/-- C5: looking up a folder that no group has a member in fails (the
`KeyError` of `self._folder_cache[folder]`, modelled as `none`) instead
of returning an empty entry set. -/
theorem duplicates_in_folder_unindexed_fails (match_sets : List MatchSet)
    (folder : Path)
    (h : ∀ m ∈ match_sets, ∀ fp ∈ m.file_list, Path.parent fp ≠ folder) :
    duplicates_in_folder match_sets folder = none := by
  have hk : ¬(create_folder_cache match_sets folder).isSome := by
    rw [isSome_create_folder_cache]
    rintro ⟨m, hm, hf⟩
    rcases List.mem_map.mp hf with ⟨fp, hfp, hpar⟩
    exact h m hm fp hfp hpar
  unfold duplicates_in_folder
  cases hc : create_folder_cache match_sets folder with
  | none => rfl
  | some s =>
    rw [hc] at hk
    simp at hk

/-- Witness for C5: the folder `/zzz` holds no duplicate member, and its
lookup fails. -/
theorem duplicates_in_folder_unindexed_fails_witness :
    duplicates_in_folder exampleSets ["zzz"] = none :=
  duplicates_in_folder_unindexed_fails exampleSets ["zzz"] (by decide)

/-- C9: `folders_with_duplicates` equals the key set of the folder
cache, so every folder the report builder iterates over is present in
the index and the `KeyError` branch of `duplicates_in_folder` is
unreachable during report generation. -/
theorem folder_cache_covers_report (match_sets : List MatchSet) (f : Path) :
    (f ∈ folders_with_duplicates match_sets ↔
      (create_folder_cache match_sets f).isSome) ∧
    (f ∈ folders_with_duplicates match_sets →
      (duplicates_in_folder match_sets f).isSome) := by
  have h1 : f ∈ folders_with_duplicates match_sets ↔
      (create_folder_cache match_sets f).isSome := by
    rw [mem_folders_with_duplicates, isSome_create_folder_cache]
    unfold MatchSet.directory_list
    simp [List.mem_map]
  exact ⟨h1, fun hf => (isSome_duplicates_in_folder _ _).mpr (h1.mp hf)⟩

/-- Witness for C9: `/d1` is a folder with duplicates, and its analyzer
lookup succeeds. -/
theorem folder_cache_covers_report_witness :
    (duplicates_in_folder exampleSets ["d1"]).isSome :=
  (folder_cache_covers_report exampleSets ["d1"]).2 (by decide)

/-- C10: `duplicates_in_folder` is deterministic and effect-free in the
embedding: its result is invariant under the (arbitrary) iteration order
of the match-set collection, and the two invocations the report builder
makes per folder — the entry list of the first pass and the rollup of
the render pass — agree on the same entry set. -/
theorem duplicates_in_folder_deterministic (match_sets match_sets' : List MatchSet)
    (ctx : RenderCtx) (f : Path) (h : List.Perm match_sets match_sets') :
    duplicates_in_folder match_sets f = duplicates_in_folder match_sets' f ∧
    (processFolder match_sets ctx f).2.1 =
      (duplicates_in_folder match_sets f).getD ∅ ∧
    duplicate_folder_size match_sets f =
      ∑ e ∈ (processFolder match_sets ctx f).2.1, e.size := by
  refine ⟨?_, rfl, rfl⟩
  have hs : (duplicates_in_folder match_sets f).isSome ↔
      (duplicates_in_folder match_sets' f).isSome := by
    rw [isSome_duplicates_in_folder, isSome_duplicates_in_folder,
      isSome_create_folder_cache, isSome_create_folder_cache]
    constructor <;> rintro ⟨m, hm, hf⟩
    · exact ⟨m, h.mem_iff.mp hm, hf⟩
    · exact ⟨m, h.mem_iff.mpr hm, hf⟩
  have hd : (duplicates_in_folder match_sets f).getD ∅ =
      (duplicates_in_folder match_sets' f).getD ∅ := by
    apply Finset.ext
    intro e
    rw [mem_duplicates_in_folder, mem_duplicates_in_folder]
    constructor <;> rintro ⟨m, hm, rest⟩
    · exact ⟨m, h.mem_iff.mp hm, rest⟩
    · exact ⟨m, h.mem_iff.mpr hm, rest⟩
  cases h1 : duplicates_in_folder match_sets f with
  | none =>
    cases h2 : duplicates_in_folder match_sets' f with
    | none => rfl
    | some s =>
      rw [h1, h2] at hs
      simp at hs
  | some s =>
    cases h2 : duplicates_in_folder match_sets' f with
    | none =>
      rw [h1, h2] at hs
      simp at hs
    | some s' =>
      rw [h1, h2] at hd
      simp only [Option.getD_some] at hd
      rw [hd]

/-- Witness for C10: analyzing `/d2` yields the same result whether the
match sets are iterated as `[A, B]` or `[B, A]`. -/
theorem duplicates_in_folder_deterministic_witness :
    duplicates_in_folder [exampleA, exampleB] ["d2"] =
      duplicates_in_folder [exampleB, exampleA] ["d2"] :=
  (duplicates_in_folder_deterministic [exampleA, exampleB] [exampleB, exampleA]
    exampleCtx ["d2"] (List.Perm.swap exampleB exampleA [])).1

/-- The entry set one match set contributes, as an image over the
distinct members lying in the folder. -/
theorem entries_of_match_set_eq_image (m : MatchSet) (folder : Path) :
    entries_of_match_set m folder =
      (m.file_list.filter (fun fp => decide (Path.parent fp = folder))).toFinset.image
        (fun fp =>
          { in_duplicate_folder := fp
            other_paths := m.file_list.toFinset.erase fp
            size := m.file_size }) := by
  apply Finset.ext
  intro e
  rw [mem_entries_of_match_set, Finset.mem_image]
  simp only [List.mem_toFinset, List.mem_filter, decide_eq_true_eq]
  constructor
  · rintro ⟨fp, h1, h2, rfl⟩
    exact ⟨fp, ⟨h1, h2⟩, rfl⟩
  · rintro ⟨fp, ⟨h1, h2⟩, rfl⟩
    exact ⟨fp, h1, h2, rfl⟩

/-- Summing the sizes of one match set's entries counts the group size
once per distinct member lying in the folder. -/
theorem sum_entries_of_match_set (m : MatchSet) (folder : Path) :
    ∑ e ∈ entries_of_match_set m folder, e.size =
      m.file_size *
        (((m.file_list.filter
          (fun fp => decide (Path.parent fp = folder))).toFinset.card : Int)) := by
  rw [entries_of_match_set_eq_image, Finset.sum_image
    (fun x _ y _ hxy => congrArg DuplicateInFolder.in_duplicate_folder hxy)]
  show (∑ _fp ∈ (m.file_list.filter
      (fun fp => decide (Path.parent fp = folder))).toFinset, m.file_size) = _
  rw [Finset.sum_const, nsmul_eq_mul, mul_comm]

/-- C2: the per-folder rollup is the sum of `size` over the entries the
analyzer returns for the folder, counted once per entry — for groups
with pairwise distinct (member set, size), a group with k distinct
members in the folder contributes k times its size — and on the spec's
end-to-end example the `/d2` rollup is 200. -/
theorem duplicate_folder_size_spec (match_sets : List MatchSet) (folder : Path)
    (s : Finset MatchSet)
    (h1 : create_folder_cache match_sets folder = some s)
    (h2 : ∀ m1 ∈ match_sets, ∀ m2 ∈ match_sets,
      m1.file_list.toFinset = m2.file_list.toFinset →
      m1.file_size = m2.file_size → m1 = m2) :
    duplicate_folder_size match_sets folder =
      ∑ e ∈ (duplicates_in_folder match_sets folder).getD ∅, e.size ∧
    duplicate_folder_size match_sets folder =
      ∑ m ∈ s, m.file_size *
        (((m.file_list.filter
          (fun fp => decide (Path.parent fp = folder))).toFinset.card : Int)) ∧
    duplicate_folder_size exampleSets ["d2"] = 200 := by
  refine ⟨rfl, ?_, by decide⟩
  have hmems : ∀ m ∈ s, m ∈ match_sets := by
    intro m hm
    have hx := mem_create_folder_cache match_sets folder m
    rw [h1] at hx
    simp only [Option.getD_some] at hx
    exact (hx.mp hm).1
  have hdisj : Set.PairwiseDisjoint (↑s : Set MatchSet)
      (fun m => entries_of_match_set m folder) := by
    intro m1 hm1 m2 hm2 hne
    refine Finset.disjoint_left.mpr ?_
    intro e he1 he2
    rcases (mem_entries_of_match_set m1 folder e).mp he1 with ⟨fp1, hf1, hp1, rfl⟩
    rcases (mem_entries_of_match_set m2 folder _).mp he2 with ⟨fp2, hf2, hp2, heq⟩
    rw [DuplicateInFolder.mk.injEq] at heq
    obtain ⟨hfp, herase, hsize⟩ := heq
    subst hfp
    have hT : m1.file_list.toFinset = m2.file_list.toFinset := by
      have i1 : insert fp1 (m1.file_list.toFinset.erase fp1) = m1.file_list.toFinset :=
        Finset.insert_erase (List.mem_toFinset.mpr hf1)
      have i2 : insert fp1 (m2.file_list.toFinset.erase fp1) = m2.file_list.toFinset :=
        Finset.insert_erase (List.mem_toFinset.mpr hf2)
      rw [← i1, ← i2, herase]
    exact hne (h2 m1 (hmems m1 (Finset.mem_coe.mp hm1)) m2
      (hmems m2 (Finset.mem_coe.mp hm2)) hT hsize)
  unfold duplicate_folder_size duplicates_in_folder
  rw [h1]
  simp only [Option.getD_some]
  rw [Finset.sum_biUnion hdisj]
  exact Finset.sum_congr rfl (fun m _ => sum_entries_of_match_set m folder)

/-- Witness for C2 at the spec's end-to-end example: the `/d2` rollup is
100 (group A's one member there) + 50 + 50 (group B's two members)
= 200, not deduplicated by group. -/
theorem duplicate_folder_size_spec_witness :
    duplicate_folder_size exampleSets ["d2"] = 200 :=
  (duplicate_folder_size_spec exampleSets ["d2"] {exampleB, exampleA}
    (by decide) (by decide)).2.2

/-- C6 (counterexample): construction does not fail on a schema-violating
record — a record with an empty file list, or a negative size, is
accepted as-is, contradicting the claim that every such record raises a
`MalformedInputError`. -/
theorem construct_accepts_malformed :
    MatchSet.construct { fileSize := some 5, fileList := some [] } =
      some { file_size := 5, file_list := [] } ∧
    MatchSet.construct
      { fileSize := some (-3), fileList := some [{ filePath := some ["a"] }] } =
      some { file_size := -3, file_list := [["a"]] } :=
  ⟨rfl, rfl⟩

/-- Extracting the file list fails exactly when some raw entry is
missing the `filePath` key. -/
theorem get_file_list_eq_none (items : List RawFileEntry) :
    get_file_list items = none ↔ ∃ it ∈ items, it.filePath = none := by
  induction items with
  | nil => simp [get_file_list]
  | cons it rest ih =>
    cases h : it.filePath with
    | none =>
      simp only [get_file_list, h]
      exact iff_of_true trivial ⟨it, List.mem_cons_self _ _, h⟩
    | some p =>
      cases hr : get_file_list rest with
      | none =>
        simp only [get_file_list, h, hr]
        rcases ih.mp hr with ⟨it', h1, h2⟩
        exact iff_of_true trivial ⟨it', List.mem_cons_of_mem _ h1, h2⟩
      | some ps =>
        simp only [get_file_list, h, hr]
        constructor
        · intro hx
          exact absurd hx (by simp)
        · rintro ⟨it', hm, hp⟩
          rcases List.mem_cons.mp hm with rfl | hm'
          · rw [h] at hp
            exact absurd hp (by simp)
          · have hn : get_file_list rest = none := ih.mpr ⟨it', hm', hp⟩
            rw [hr] at hn
            exact absurd hn (by simp)

/-- C6 (amended): construction fails — with a `KeyError`, the only error
the source can raise here, modelled as `none` — exactly when the
`fileSize` key is missing, the `fileList` key is missing, or some
`fileList` entry is missing the `filePath` key; otherwise the raw
values are stored unvalidated, so a negative size or an empty file list
is accepted. -/
theorem construct_spec_amended (r : RawMatchSet) :
    (MatchSet.construct r = none ↔
      r.fileSize = none ∨ r.fileList = none ∨
      ∃ items, r.fileList = some items ∧ ∃ it ∈ items, it.filePath = none) ∧
    ∀ sz items fl, r.fileSize = some sz → r.fileList = some items →
      get_file_list items = some fl →
      MatchSet.construct r = some { file_size := sz, file_list := fl } := by
  obtain ⟨fs, fl⟩ := r
  constructor
  · constructor
    · intro hnone
      cases fs with
      | none => exact Or.inl rfl
      | some sz =>
        cases fl with
        | none => exact Or.inr (Or.inl rfl)
        | some items =>
          cases hg : get_file_list items with
          | some l =>
            exfalso
            have hv : MatchSet.construct ⟨some sz, some items⟩ =
                some { file_size := sz, file_list := l } := by
              simp only [MatchSet.construct, hg]
            rw [hv] at hnone
            exact Option.noConfusion hnone
          | none =>
            exact Or.inr (Or.inr ⟨items, rfl, (get_file_list_eq_none items).mp hg⟩)
    · rintro (h | h | ⟨items, heq, hex⟩)
      · have : fs = none := by simpa using h
        subst this
        rfl
      · have : fl = none := by simpa using h
        subst this
        cases fs with
        | none => rfl
        | some sz => rfl
      · have : fl = some items := by simpa using heq
        subst this
        have hg : get_file_list items = none := (get_file_list_eq_none items).mpr hex
        cases fs with
        | none => rfl
        | some sz => simp only [MatchSet.construct, hg]
  · intro sz items l hfs hfl hg
    cases fs with
    | none => exact absurd hfs (by simp)
    | some sz' =>
      cases fl with
      | none => exact absurd hfl (by simp)
      | some items' =>
        have h1 : sz' = sz := by simpa using hfs
        have h2 : items' = items := by simpa using hfl
        subst h1
        subst h2
        simp only [MatchSet.construct, hg]

/-- Witness for C6's amended statement: a record whose only defect is a
`fileList` entry without the `filePath` key fails even though both
top-level keys are present, and a well-formed record passes its raw
values through. -/
theorem construct_spec_amended_witness :
    MatchSet.construct
      { fileSize := some 5, fileList := some [{ filePath := none }] } = none ∧
    MatchSet.construct
      { fileSize := some 7, fileList := some [{ filePath := some ["x", "y"] }] } =
      some { file_size := 7, file_list := [["x", "y"]] } :=
  ⟨(construct_spec_amended
      { fileSize := some 5, fileList := some [{ filePath := none }] }).1.mpr
      (Or.inr (Or.inr ⟨[{ filePath := none }], rfl,
        ⟨{ filePath := none }, List.mem_cons_self _ _, rfl⟩⟩)),
   (construct_spec_amended
      { fileSize := some 7, fileList := some [{ filePath := some ["x", "y"] }] }).2
      7 [{ filePath := some ["x", "y"] }] [["x", "y"]] rfl rfl rfl⟩

/-- C7: the report's global header states the count of groups, the count
of folders with duplicates, and a total size that sums the size of every
distinct group exactly once (one summand per index of the collection),
independent of how many entries or folders a group contributes to. -/
theorem report_header_spec (match_sets : List MatchSet) (ctx : RenderCtx)
    (folderOrder : List Path) :
    (to_markdown_lines match_sets ctx folderOrder).take 3 =
      ["# Duplikate von " ++ ctx.user,
       "Es gibt " ++ toString match_sets.length ++ " Duplikate in " ++
         toString (folders_with_duplicates match_sets).card ++ " Ordnern.  ",
       "Diese sind insgesamt " ++ humansize ((total_size match_sets : ℚ)) ++
         " groß."] ∧
    total_size match_sets =
      ∑ i : Fin match_sets.length, (match_sets.get i).file_size := by
  refine ⟨rfl, ?_⟩
  unfold total_size
  induction match_sets with
  | nil => simp
  | cons m rest ih =>
    simp only [List.map_cons, List.sum_cons, List.length_cons, Fin.sum_univ_succ,
      List.get_cons_zero]
    rw [ih]
    exact congrArg (m.file_size + ·) (Finset.sum_congr rfl (fun i _ => rfl))

/-- C4: in the rendered report the per-folder sections appear in
ascending order of the number of non-duplicate files (pure-duplicate
folders first), and a folder whose non-duplicate file list is empty gets
the explicit pure-duplicate marker line in the output. -/
theorem report_sections_sorted_and_marked (match_sets : List MatchSet)
    (ctx : RenderCtx) (folderOrder : List Path) :
    List.Sorted (fun a b => a ≤ b)
      ((sorted_duplicate_folders match_sets ctx folderOrder).map
        (fun e => e.2.2.length)) ∧
    ∀ e ∈ sorted_duplicate_folders match_sets ctx folderOrder, e.2.2 = [] →
      "Dieser Ordner enthält nur Duplikate  " ∈ renderSection match_sets ctx e ∧
      "Dieser Ordner enthält nur Duplikate  " ∈
        to_markdown_lines match_sets ctx folderOrder := by
  have hs : List.Sorted
      (fun (a b : Path × Finset DuplicateInFolder × List Path) =>
        a.2.2.length ≤ b.2.2.length)
      (sorted_duplicate_folders match_sets ctx folderOrder) := by
    unfold sorted_duplicate_folders
    haveI : IsTotal (Path × Finset DuplicateInFolder × List Path)
        (fun a b => a.2.2.length ≤ b.2.2.length) := ⟨fun a b => Nat.le_total _ _⟩
    haveI : IsTrans (Path × Finset DuplicateInFolder × List Path)
        (fun a b => a.2.2.length ≤ b.2.2.length) :=
      ⟨fun a b c hab hbc => Nat.le_trans hab hbc⟩
    exact List.sorted_insertionSort _ _
  constructor
  · exact List.pairwise_map.mpr hs
  · intro e he h0
    have hm : "Dieser Ordner enthält nur Duplikate  " ∈
        renderSection match_sets ctx e := by
      unfold renderSection
      rw [h0]
      simp
    refine ⟨hm, ?_⟩
    unfold to_markdown_lines
    exact List.mem_append_right _ (List.mem_flatMap.mpr ⟨e, he, hm⟩)

/-- Witness for C4: with a directory listing under which `/d1` contains
only duplicate members, the pure-duplicate marker line appears in the
rendered report. -/
theorem report_sections_sorted_and_marked_witness :
    "Dieser Ordner enthält nur Duplikate  " ∈
      to_markdown_lines exampleSets exampleCtx [["d1"], ["d2"]] :=
  ((report_sections_sorted_and_marked exampleSets exampleCtx [["d1"], ["d2"]]).2
    (["d1"], exampleD1Entries, []) (by decide) rfl).2

/-- Rounding with `roundHalfEven` fixes the integers. -/
theorem roundHalfEven_intCast (n : Int) : roundHalfEven ((n : ℚ)) = n := by
  unfold roundHalfEven
  norm_num

/-- Evaluation of `format2f` when the scaled value is a known integer
number of hundredths. -/
theorem format2f_of_mul_eq (q : ℚ) (n : Int) (h : q * 100 = (n : ℚ)) :
    format2f q = toString (n / 100) ++ "." ++
      (if n % 100 < 10 then "0" else "") ++ toString (n % 100) := by
  simp only [format2f]
  rw [h, roundHalfEven_intCast]

/-- C8: the size formatter divides by 1024 while at least 1024 remains
and a larger unit exists, renders two decimals, strips trailing zeros
and a trailing dot, and appends the unit — checked on the spec's five
example inputs. -/
theorem humansize_examples :
    humansize 0 = "0  B" ∧ humansize 1023 = "1023  B" ∧
    humansize 1024 = "1  KB" ∧ humansize 1536 = "1.5  KB" ∧
    humansize 1073741824 = "1  GB" := by
  have f0 : format2f 0 = "0.00" := by
    rw [format2f_of_mul_eq 0 0 (by norm_num)]
    decide
  have f1023 : format2f 1023 = "1023.00" := by
    rw [format2f_of_mul_eq 1023 102300 (by norm_num)]
    decide
  have f1 : format2f 1 = "1.00" := by
    rw [format2f_of_mul_eq 1 100 (by norm_num)]
    decide
  have f32 : format2f ((3 : ℚ) / 2) = "1.50" := by
    rw [format2f_of_mul_eq ((3 : ℚ) / 2) 150 (by norm_num)]
    decide
  refine ⟨?_, ?_, ?_, ?_, ?_⟩
  · show rstrip (rstrip (format2f (humanLoop 5 0 0).1) '0') '.' ++ "  " ++
      (["B", "KB", "MB", "GB", "TB", "PB"] : List String).getD (humanLoop 5 0 0).2
        "" = "0  B"
    rw [show humanLoop 5 0 0 = (0, 0) from rfl]
    show rstrip (rstrip (format2f 0) '0') '.' ++ "  " ++ "B" = "0  B"
    rw [f0]
    decide
  · show rstrip (rstrip (format2f (humanLoop 5 1023 0).1) '0') '.' ++ "  " ++
      (["B", "KB", "MB", "GB", "TB", "PB"] : List String).getD
        (humanLoop 5 1023 0).2 "" = "1023  B"
    rw [show humanLoop 5 1023 0 = (1023, 0) from rfl]
    show rstrip (rstrip (format2f 1023) '0') '.' ++ "  " ++ "B" = "1023  B"
    rw [f1023]
    decide
  · have hL : humanLoop 5 1024 0 = (1, 1) := by
      rw [show humanLoop 5 1024 0 =
          if 1024 ≤ (1024 : ℚ) then humanLoop 4 (1024 / 1024) 1 else (1024, 0)
          from rfl,
        if_pos (by norm_num : (1024 : ℚ) ≤ 1024),
        show ((1024 : ℚ) / 1024) = 1 by norm_num]
      rfl
    show rstrip (rstrip (format2f (humanLoop 5 1024 0).1) '0') '.' ++ "  " ++
      (["B", "KB", "MB", "GB", "TB", "PB"] : List String).getD
        (humanLoop 5 1024 0).2 "" = "1  KB"
    rw [hL]
    show rstrip (rstrip (format2f 1) '0') '.' ++ "  " ++ "KB" = "1  KB"
    rw [f1]
    decide
  · have hL : humanLoop 5 1536 0 = (3 / 2, 1) := by
      rw [show humanLoop 5 1536 0 =
          if 1024 ≤ (1536 : ℚ) then humanLoop 4 (1536 / 1024) 1 else (1536, 0)
          from rfl,
        if_pos (by norm_num : (1024 : ℚ) ≤ 1536),
        show ((1536 : ℚ) / 1024) = 3 / 2 by norm_num,
        show humanLoop 4 ((3 : ℚ) / 2) 1 =
          if 1024 ≤ ((3 : ℚ) / 2) then humanLoop 3 ((3 / 2) / 1024) 2
          else (3 / 2, 1) from rfl,
        if_neg (by norm_num : ¬(1024 : ℚ) ≤ 3 / 2)]
    show rstrip (rstrip (format2f (humanLoop 5 1536 0).1) '0') '.' ++ "  " ++
      (["B", "KB", "MB", "GB", "TB", "PB"] : List String).getD
        (humanLoop 5 1536 0).2 "" = "1.5  KB"
    rw [hL]
    show rstrip (rstrip (format2f ((3 : ℚ) / 2)) '0') '.' ++ "  " ++ "KB" =
      "1.5  KB"
    rw [f32]
    decide
  · have hL : humanLoop 5 1073741824 0 = (1, 3) := by
      rw [show humanLoop 5 1073741824 0 =
          if 1024 ≤ (1073741824 : ℚ) then humanLoop 4 (1073741824 / 1024) 1
          else (1073741824, 0) from rfl,
        if_pos (by norm_num : (1024 : ℚ) ≤ 1073741824),
        show ((1073741824 : ℚ) / 1024) = 1048576 by norm_num,
        show humanLoop 4 (1048576 : ℚ) 1 =
          if 1024 ≤ (1048576 : ℚ) then humanLoop 3 (1048576 / 1024) 2
          else (1048576, 1) from rfl,
        if_pos (by norm_num : (1024 : ℚ) ≤ 1048576),
        show ((1048576 : ℚ) / 1024) = 1024 by norm_num,
        show humanLoop 3 (1024 : ℚ) 2 =
          if 1024 ≤ (1024 : ℚ) then humanLoop 2 (1024 / 1024) 3
          else (1024, 2) from rfl,
        if_pos (by norm_num : (1024 : ℚ) ≤ 1024),
        show ((1024 : ℚ) / 1024) = 1 by norm_num]
      rfl
    show rstrip (rstrip (format2f (humanLoop 5 1073741824 0).1) '0') '.' ++
      "  " ++ (["B", "KB", "MB", "GB", "TB", "PB"] : List String).getD
        (humanLoop 5 1073741824 0).2 "" = "1  GB"
    rw [hL]
    show rstrip (rstrip (format2f 1) '0') '.' ++ "  " ++ "GB" = "1  GB"
    rw [f1]
    decide

end FindDuplicates
